import Mathlib

/-!
Shallow embedding of `scraper.py` (VARCtrainer): the RSS selector, the
paragraph chunking loop, the retrying question generator and the dataset
assembly of `main`.  Strings are modelled as `List Char`; the external
collaborators (HTTP fetch, DOM parsing, the Gemini capability, `json.loads`)
are parameters whose observable outcome is passed in, while every piece of
decision logic in the repository is translated directly.
-/

/-- Python strings are modelled as lists of characters. -/
abbrev PyStr := List Char

/-- Coerce a Lean string literal into the `List Char` model. -/
def chars (s : String) : PyStr := s.toList

/-- The apostrophe character (written via its code point). -/
def apos : Char := Char.ofNat 39

/-- Pythonic substring test `pat in s`. -/
def isSubstr (pat s : PyStr) : Bool := decide (List.IsInfix pat s)

/-- Helper for `wlen`: counts maximal runs of non-whitespace characters.
The boolean records whether the scan is currently inside a word, so that
`countWords p false` equals `len(p.split())` in Python (split on any
whitespace, empty pieces dropped). -/
def countWords : PyStr → Bool → Nat
  | [], _ => 0
  | c :: rest, inWord =>
    if c.isWhitespace then countWords rest false
    else (if inWord then 0 else 1) + countWords rest true

/-- Word count `wlen p`, Pythonic `len(p.split())`: the number of whitespace-separated
words of `p`.  Used at `scraper.py:65` and `scraper.py:150`. -/
def wlen (p : PyStr) : Nat := countWords p false

/-- The blank-line separator `"\n\n"` used by the chunking loop
(`scraper.py:154`). -/
def sep : PyStr := ['\n', '\n']

/-- Pythonic `join` over the blank-line separator, as in `scraper.py:154`. -/
def joinSep : List PyStr → PyStr
  | [] => []
  | [p] => p
  | p :: q :: rest => p ++ sep ++ joinSep (q :: rest)

/-- Pythonic `split` on the blank-line separator: leftmost non-overlapping splitting on the
two-character blank-line separator.  This is the claim-side inverse used to
state that rejoined chunks reconstruct the paragraphs. -/
def splitOn2 : PyStr → List PyStr
  | [] => [[]]
  | [c] => [[c]]
  | a :: b :: rest =>
    if a = '\n' ∧ b = '\n' then [] :: splitOn2 rest
    else (a :: (splitOn2 (b :: rest)).headI) :: (splitOn2 (b :: rest)).tail

/-- The chunking loop of `main` (`scraper.py:145-157`), with the hard-coded
threshold `500` lifted to the parameter `target` (the spec treats it as
configuration).  State: `cur` is `current_chunk`, `w` is `w_count`; a chunk
is sealed when the running count strictly exceeds `target`, and a non-empty
accumulator is sealed after the loop. -/
def chunkAux (target : Nat) : List PyStr → List PyStr → Nat → List PyStr
  | [], cur, _ => if cur.isEmpty then [] else [joinSep cur]
  | p :: rest, cur, w =>
    if w + wlen p > target then joinSep (cur ++ [p]) :: chunkAux target rest [] 0
    else chunkAux target rest (cur ++ [p]) (w + wlen p)

/-- The chunker: `chunkAux` started from the empty accumulator, exactly as
the loop at `scraper.py:145-157` starts with `current_chunk = []`,
`w_count = 0`.  The source runs it with `target = 500`. -/
def chunk (target : Nat) (paragraphs : List PyStr) : List PyStr :=
  chunkAux target paragraphs [] 0

/-- The same loop, recording each sealed chunk as its list of paragraphs
instead of the joined string; used to reason about the chunker. -/
def chunkGroups (target : Nat) : List PyStr → List PyStr → Nat → List (List PyStr)
  | [], cur, _ => if cur.isEmpty then [] else [cur]
  | p :: rest, cur, w =>
    if w + wlen p > target then (cur ++ [p]) :: chunkGroups target rest [] 0
    else chunkGroups target rest (cur ++ [p]) (w + wlen p)

/-- Modelled from the spec (§4.2): the sealing rule as the spec words it,
"if the running total has reached or exceeded `target_words`, seal" — i.e.
with `≥` where the source uses strict `>`.  Stated only to compare with
`chunkAux`. -/
def chunkSpecAux (target : Nat) : List PyStr → List PyStr → Nat → List PyStr
  | [], cur, _ => if cur.isEmpty then [] else [joinSep cur]
  | p :: rest, cur, w =>
    if w + wlen p ≥ target then joinSep (cur ++ [p]) :: chunkSpecAux target rest [] 0
    else chunkSpecAux target rest (cur ++ [p]) (w + wlen p)

/-- Modelled from the spec: the spec-worded chunker started empty. -/
def chunkSpec (target : Nat) (paragraphs : List PyStr) : List PyStr :=
  chunkSpecAux target paragraphs [] 0

/-- JSON values, the codomain of `json.loads` (`scraper.py:110`). -/
inductive JVal where
  | null : JVal
  | bool (b : Bool) : JVal
  | num (n : Int) : JVal
  | str (s : PyStr) : JVal
  | arr (xs : List JVal) : JVal
  | obj (fields : List (PyStr × JVal)) : JVal

/-- The key checked by the validator at `scraper.py:113`. -/
def questionKey : PyStr := chars "question"

/-- Is this JSON value the string `"question"`?  Python equality between the
string `"question"` and a JSON value is true exactly in this case. -/
def isQuestionStr : JVal → Bool
  | JVal.str s => s == questionKey
  | _ => false

/-- Pythonic membership `"question" in questions[0]` (`scraper.py:113`): key membership
for a dict, substring for a string, element membership for a list, and a
`TypeError` (modelled as `Except.error`) for the non-container values. -/
def containsQuestion : JVal → Except Unit Bool
  | JVal.obj fields => Except.ok (fields.any (fun kv => kv.1 == questionKey))
  | JVal.str s => Except.ok (isSubstr questionKey s)
  | JVal.arr xs => Except.ok (xs.any isQuestionStr)
  | _ => Except.error ()

/-- The whole validation test at `scraper.py:113`:
`isinstance(questions, list) and len(questions) > 0 and "question" in questions[0]`,
with short-circuiting: only the last conjunct can raise. -/
def validateQuestions : JVal → Except Unit Bool
  | JVal.arr (q0 :: _) => containsQuestion q0
  | JVal.arr [] => Except.ok false
  | _ => Except.ok false

/-- The elements of a JSON array (the Python list returned at
`scraper.py:114`). -/
def jarrElems : JVal → List JVal
  | JVal.arr xs => xs
  | _ => []

/-- One observed attempt of the generation capability composed with
`response.text.strip()`, the markdown-fence cleaner and `json.loads`
(`scraper.py:104-110`): either some step raised an exception, or parsing
produced a JSON value.  The capability itself is an external collaborator,
so an attempt is an input to the embedding. -/
inductive GenAttempt where
  | exn : GenAttempt
  | parsed (v : JVal) : GenAttempt

/-- Does an attempt pass the validation at `scraper.py:113`?  (An exception,
a parse failure, or a value failing or crashing the check all count as a
rejected attempt.) -/
def acceptedB : GenAttempt → Bool
  | GenAttempt.exn => false
  | GenAttempt.parsed v =>
    match validateQuestions v with
    | Except.ok true => true
    | _ => false

/-- The dummy question returned after all retries fail
(`scraper.py:124-129`). -/
def fallbackQuestion : JVal :=
  JVal.obj
    [ (chars "question", JVal.str (chars "AI Generation Failed for this passage. Please skip.")),
      (chars "options", JVal.arr [JVal.str (chars "Skip"), JVal.str (chars "Skip"),
        JVal.str (chars "Skip"), JVal.str (chars "Skip")]),
      (chars "correct_index", JVal.num 0),
      (chars "explanation", JVal.str (chars "Check API key or logs.")) ]

/-- The retry loop `for attempt in range(retries)` of `generate_cat_questions`
(`scraper.py:102-129`).  `cap a` is the observed outcome of the capability
call made on loop iteration `a`; the first component of the result is the
returned Python list, the second counts how many capability invocations the
loop made (instrumentation needed to state the invocation-count claims; the
`time.sleep` backoff is external and irrelevant to the result). -/
def genLoop (cap : Nat → GenAttempt) : Nat → Nat → List JVal × Nat
  | 0, _ => ([fallbackQuestion], 0)
  | k + 1, a =>
    match cap a with
    | GenAttempt.exn =>
      ((genLoop cap k (a + 1)).1, (genLoop cap k (a + 1)).2 + 1)
    | GenAttempt.parsed v =>
      match validateQuestions v with
      | Except.ok true => (jarrElems v, 1)
      | _ => ((genLoop cap k (a + 1)).1, (genLoop cap k (a + 1)).2 + 1)

/-- Function `generate_cat_questions` (`scraper.py:75-129`): returns `[]` immediately
when the API key is absent (`scraper.py:76`), otherwise runs the retry loop.
`retries` defaults to 3 at the call site in `main`. -/
def generate_cat_questions (apiKey : Bool) (cap : Nat → GenAttempt) (retries : Nat) :
    List JVal × Nat :=
  if apiKey then genLoop cap retries 0 else ([], 0)

/-- Link test `"/essays/" in link` (`scraper.py:43`). -/
def hasEssay (link : PyStr) : Bool := isSubstr (chars "/essays/") link

/-- The selection loop of `get_latest_essay_from_rss` (`scraper.py:34-48`):
given the links of the feed items (the request and XML parsing are external;
a failed request is modelled by the caller passing `none` for the item
list), return the first link containing `"/essays/"`, else `None`. -/
def get_latest_essay_from_rss (items : List PyStr) : Option PyStr :=
  items.find? hasEssay

/-- Pythonic `s.strip()`. -/
def pyStrip (s : PyStr) : PyStr :=
  ((s.dropWhile Char.isWhitespace).reverse.dropWhile Char.isWhitespace).reverse

/-- Pythonic splitting of a string into its lines. -/
def splitLines : PyStr → List PyStr
  | [] => [[]]
  | c :: rest =>
    if c = '\n' then [] :: splitLines rest
    else (c :: (splitLines rest).headI) :: (splitLines rest).tail

/-- Pythonic `s.lower()` on the character model. -/
def lowerStr (s : PyStr) : PyStr := s.map Char.toLower

/-- The paragraph filter of `scrape_essay` (`scraper.py:65`):
`len(txt.split()) > 25 and "subscribe" not in txt.lower()`. -/
def goodPara (txt : PyStr) : Bool :=
  decide (25 < wlen txt) && !(isSubstr (chars "subscribe") (lowerStr txt))

/-- Function `scrape_essay` (`scraper.py:50-72`): the HTTP request, DOM parsing and
`h1` extraction are external, so `fetch url` supplies the outcome — `none`
when the request or parsing raised, otherwise the `h1` title (if any) and
the raw paragraph texts.  The repository logic embedded here is the title
default `"Aeon Essay"`, the paragraph filter, and the `None` result when no
paragraph survives the filter. -/
def scrape_essay (fetch : PyStr → Option (Option PyStr × List PyStr)) (url : PyStr) :
    Option (PyStr × List PyStr) :=
  match fetch url with
  | none => none
  | some (h1, paras) =>
    let title := h1.getD (chars "Aeon Essay")
    let clean := paras.filter goodPara
    if clean.isEmpty then none else some (title, clean)

/-- Constant `BACKUP_TITLE` (`scraper.py:17`). -/
def BACKUP_TITLE : PyStr := chars "The case for idleness"

/-- Constant `BACKUP_SOURCE` (`scraper.py:18`). -/
def BACKUP_SOURCE : PyStr :=
  chars "[https://aeon.co/essays/the-case-for-idleness](https://aeon.co/essays/the-case-for-idleness)"

/-- Constant `BACKUP_TEXT` (`scraper.py:19-27`), a triple-quoted literal: a leading
newline, four paragraphs separated by blank lines (the first paragraph ends
with a trailing space before its newline), and a trailing newline.  The
possessive apostrophe in the second paragraph is spliced in as `apos`. -/
def BACKUP_TEXT : PyStr :=
  chars "\nWork is the defining characteristic of our society. We are taught that the devil finds work for idle hands, and that we should always be busy. But is this true? For most of human history, leisure was the goal of life. The Greeks saw work as a means to an end, not an end in itself. Aristotle argued that we work in order to have leisure. Today, however, we have reversed this. We treat leisure as a time to recharge so that we can work more. \n\nThis obsession with productivity is damaging our mental health and our creativity. When we are constantly busy, we do not have time to think. Deep thought requires silence and stillness. It requires the ability to let the mind wander. History"
    ++ (apos :: chars "s greatest thinkers were often idlers. Bertrand Russell wrote a famous essay in praise of idleness, arguing that if we all worked four hours a day, there would be enough for everyone, and we would all have time to pursue our passions.\n\nThe modern economy, however, is built on the consumption of goods and services, which requires constant production. We are trapped in a cycle of earning and spending. To break this, we need to redefine what it means to live a good life. We need to value time over money, and experiences over possessions. We need to learn how to do nothing.\n\nDoing nothing is not easy. We are addicted to stimulation. We reach for our phones the moment we are bored. But boredom is the gateway to creativity. When we are bored, our brains start to make new connections. We start to dream. If we want to solve the complex problems of the 21st century, we need more dreamers and fewer worker bees. We need to reclaim our right to be idle.\n")

/-- Comprehension `[p.strip() for p in BACKUP_TEXT.split(newline) if p.strip()]`
(`scraper.py:143`). -/
def backupParagraphs : List PyStr :=
  ((splitLines BACKUP_TEXT).map pyStrip).filter (fun p => !p.isEmpty)

/-- One passage record as appended at `scraper.py:168-172`. -/
structure Passage where
  id : Nat
  text : PyStr
  questions : List JVal

/-- The `metadata` object of the dataset (`scraper.py:160`); the current
date is external and passed in. -/
structure Metadata where
  title : PyStr
  source : PyStr
  date_scraped : PyStr

/-- The dataset written to `data.json` (`scraper.py:159-177`). -/
structure Dataset where
  metadata : Metadata
  passages : List Passage

/-- The per-passage loop of `main` (`scraper.py:165-174`): passage `i`
(0-based loop index) gets id `i+1`, the chunk text, and the result of
`generate_cat_questions(txt)` with the default `retries = 3`.  `capFor i`
is the observed behaviour of the capability during passage `i`; the
`time.sleep(5)` delay is external. -/
def buildPassages (apiKey : Bool) (capFor : Nat → Nat → GenAttempt) :
    List PyStr → Nat → List Passage
  | [], _ => []
  | txt :: rest, i =>
    { id := i + 1, text := txt,
      questions := (generate_cat_questions apiKey (capFor i) 3).1 } ::
      buildPassages apiKey capFor rest (i + 1)

/-- The dataset assembly of `main` (`scraper.py:159-172`). -/
def assemble_data (title url date : PyStr) (apiKey : Bool)
    (capFor : Nat → Nat → GenAttempt) (chunks : List PyStr) : Dataset :=
  { metadata := { title := title, source := url, date_scraped := date },
    passages := buildPassages apiKey capFor chunks 0 }

/-- The selection step of `main` (`scraper.py:132`): `rss` is the outcome
of the feed request (`none` = request failed), and the first essay link is
picked from its items. -/
def main_select (rss : Option (List PyStr)) : Option PyStr :=
  rss.bind get_latest_essay_from_rss

/-- Lines `scraper.py:133-143` of `main`: scrape the selected url if any
(`title, paragraphs = scrape_essay(url)`), and when no paragraphs were
obtained (`if not paragraphs:`) fall back to the backup title, source and
paragraphs.  Result: `(title, url, paragraphs)` as used by the rest of
`main`. -/
def main_content (rss : Option (List PyStr))
    (fetch : PyStr → Option (Option PyStr × List PyStr)) :
    PyStr × PyStr × List PyStr :=
  match main_select rss, (main_select rss).bind (scrape_essay fetch) with
  | some u, some (t, ps) => (t, u, ps)
  | _, _ => (BACKUP_TITLE, BACKUP_SOURCE, backupParagraphs)

/-- Function `main` (`scraper.py:131-178`).  `fetch` is the page-fetch collaborator
and `date` the date string of the current day.  The returned value models the JSON
document written to `data.json` at `scraper.py:176-177`; `main` has no
early-exit path, so the result is always `some` — a `none` would model
terminating without writing, which the source never does. -/
def main_run (apiKey : Bool) (capFor : Nat → Nat → GenAttempt)
    (rss : Option (List PyStr)) (fetch : PyStr → Option (Option PyStr × List PyStr))
    (date : PyStr) : Option Dataset :=
  some (assemble_data (main_content rss fetch).1 (main_content rss fetch).2.1 date
    apiKey capFor (chunk 500 (main_content rss fetch).2.2))

/-- A 26-word paragraph, long enough to pass the `> 25` word filter of
`scrape_essay`; used as concrete scraped content in witnesses. -/
def para26 : PyStr := chars "w w w w w w w w w w w w w w w w w w w w w w w w w w"

/-- A concrete essay link, used in witnesses and counterexamples. -/
def essayLinkA : PyStr := chars "https://aeon.co/essays/a"

/-- A second concrete essay link. -/
def essayLinkB : PyStr := chars "https://aeon.co/essays/b"

/-- A concrete feed item list for witnesses. -/
def itemsStub : List PyStr := [essayLinkA]

/-- A concrete page fetcher returning one long paragraph. -/
def fetchStub : PyStr → Option (Option PyStr × List PyStr) :=
  fun _ => some (some (chars "T"), [para26])

/-- A concrete capability that always raises. -/
def capForStub : Nat → Nat → GenAttempt := fun _ _ => GenAttempt.exn

/-- A concrete date string. -/
def dateStub : PyStr := chars "2026-10-12"

/-- A parsed response that is a non-empty list whose first entry has a
`question` key but none of the other schema fields. -/
def badResponse : JVal :=
  JVal.arr [JVal.obj [(chars "question", JVal.str (chars "q"))]]

/-- A parsed response that is a non-empty list whose first entry is a bare
string containing `question` (Python substring membership). -/
def strQuestionResponse : JVal := JVal.arr [JVal.str (chars "question time")]

/-- A capability constantly returning `strQuestionResponse`. -/
def capConstParsed : Nat → GenAttempt :=
  fun _ => GenAttempt.parsed strQuestionResponse

theorem splitOn2_ne_nil : ∀ s : PyStr, splitOn2 s ≠ []
  | [] => by simp [splitOn2]
  | [c] => by simp [splitOn2]
  | a :: b :: rest => by
    simp only [splitOn2]
    split <;> simp

theorem splitOn2_append (p s : PyStr) (hp : '\n' ∉ p) :
    splitOn2 (p ++ s) = (p ++ (splitOn2 s).headI) :: (splitOn2 s).tail := by
  induction p with
  | nil =>
    simp only [List.nil_append]
    rcases h : splitOn2 s with _ | ⟨a, t⟩
    · exact absurd h (splitOn2_ne_nil s)
    · simp [h]
  | cons c p ih =>
    have hc : c ≠ '\n' := fun h => hp (by simp [h])
    have hp2 : '\n' ∉ p := fun h => hp (List.mem_cons_of_mem _ h)
    rcases hps : p ++ s with _ | ⟨b, t⟩
    · have hp0 : p = [] := (List.append_eq_nil.mp hps).1
      have hs0 : s = [] := (List.append_eq_nil.mp hps).2
      subst hp0; subst hs0
      simp [splitOn2]
    · have hstep : splitOn2 (c :: (p ++ s)) =
          (c :: (splitOn2 (p ++ s)).headI) :: (splitOn2 (p ++ s)).tail := by
        rw [hps]
        simp only [splitOn2]
        rw [if_neg (fun hand => hc hand.1)]
      rw [List.cons_append, hstep, ih hp2]
      simp

theorem splitOn2_joinSep : ∀ l : List PyStr, l ≠ [] → (∀ p ∈ l, '\n' ∉ p) →
    splitOn2 (joinSep l) = l
  | [], h, _ => absurd rfl h
  | [p], _, hmem => by
    have h1 : joinSep [p] = p ++ [] := by simp [joinSep]
    rw [h1, splitOn2_append p [] (hmem p (by simp))]
    simp [splitOn2]
  | p :: q :: rest, _, hmem => by
    have hrec := splitOn2_joinSep (q :: rest) (by simp)
      (fun x hx => hmem x (List.mem_cons_of_mem _ hx))
    have hjoin : joinSep (p :: q :: rest) = p ++ ('\n' :: '\n' :: joinSep (q :: rest)) := by
      simp [joinSep, sep]
    rw [hjoin, splitOn2_append p _ (hmem p (by simp))]
    have hsplit : splitOn2 ('\n' :: '\n' :: joinSep (q :: rest)) =
        [] :: splitOn2 (joinSep (q :: rest)) := by
      simp [splitOn2]
    rw [hsplit, hrec]
    simp

theorem chunkAux_eq_groups (target : Nat) :
    ∀ ps cur w, chunkAux target ps cur w = (chunkGroups target ps cur w).map joinSep
  | [], cur, w => by
    by_cases h : cur.isEmpty <;> simp [chunkAux, chunkGroups, h]
  | p :: rest, cur, w => by
    by_cases h : w + wlen p > target <;>
      simp [chunkAux, chunkGroups, h, chunkAux_eq_groups target rest]

theorem chunkGroups_join (target : Nat) :
    ∀ ps cur w, (chunkGroups target ps cur w).flatten = cur ++ ps
  | [], cur, w => by
    by_cases h : cur.isEmpty
    · simp [chunkGroups, h, List.isEmpty_iff.mp h]
    · simp [chunkGroups, h]
  | p :: rest, cur, w => by
    by_cases h : w + wlen p > target
    · simp [chunkGroups, h, chunkGroups_join target rest]
    · simp [chunkGroups, h, chunkGroups_join target rest]

theorem chunkGroups_ne_nil (target : Nat) :
    ∀ ps cur w, ∀ g ∈ chunkGroups target ps cur w, g ≠ []
  | [], cur, w => by
    by_cases h : cur.isEmpty
    · simp [chunkGroups, h]
    · simp only [chunkGroups, h, Bool.false_eq_true, if_false, List.mem_singleton]
      rintro g rfl hnil
      exact h (by simp [hnil])
  | p :: rest, cur, w => by
    by_cases h : w + wlen p > target
    · simp only [chunkGroups, h, if_true, List.mem_cons]
      rintro g (rfl | hg)
      · simp
      · exact chunkGroups_ne_nil target rest [] 0 g hg
    · simp only [chunkGroups, h, if_false]
      exact chunkGroups_ne_nil target rest (cur ++ [p]) (w + wlen p)

theorem chunkGroups_seal_gt (target : Nat) :
    ∀ ps cur w, w = (cur.map wlen).sum →
      ∀ g ∈ (chunkGroups target ps cur w).dropLast, target < (g.map wlen).sum
  | [], cur, w, hw => by
    by_cases h : cur.isEmpty <;> simp [chunkGroups, h]
  | p :: rest, cur, w, hw => by
    by_cases h : w + wlen p > target
    · simp only [chunkGroups, h, if_true]
      rcases hG : chunkGroups target rest [] 0 with _ | ⟨g1, G2⟩
      · simp
      · have hdl : ((cur ++ [p]) :: g1 :: G2).dropLast
            = (cur ++ [p]) :: (g1 :: G2).dropLast := rfl
        rw [hdl]
        intro g hg
        rcases List.mem_cons.mp hg with rfl | hg2
        · have : ((cur ++ [p]).map wlen).sum = w + wlen p := by
            simp [hw]
          omega
        · exact chunkGroups_seal_gt target rest [] 0 rfl g (hG ▸ hg2)
    · simp only [chunkGroups, h, if_false]
      exact chunkGroups_seal_gt target rest (cur ++ [p]) (w + wlen p)
        (by simp [hw])

/-- Claim C1 (amended): for every non-empty paragraph sequence in which no
paragraph contains a newline character, splitting each produced chunk on the
blank-line separator and concatenating yields exactly the original
paragraphs in order, none dropped or duplicated. -/
theorem chunk_rejoin (target : Nat) (paragraphs : List PyStr)
    (h1 : paragraphs ≠ []) (h2 : ∀ p ∈ paragraphs, '\n' ∉ p) :
    ((chunk target paragraphs).map splitOn2).flatten = paragraphs := by
  unfold chunk
  rw [chunkAux_eq_groups, List.map_map]
  have hjoin := chunkGroups_join target paragraphs [] 0
  have hmem : ∀ g ∈ chunkGroups target paragraphs [] 0, (splitOn2 ∘ joinSep) g = g := by
    intro g hg
    exact splitOn2_joinSep g (chunkGroups_ne_nil target paragraphs [] 0 g hg)
      (fun p hp => h2 p (by
        rw [← List.nil_append paragraphs, ← hjoin]
        exact List.mem_flatten.mpr ⟨g, hg, hp⟩))
  rw [List.map_congr_left hmem]
  simpa using hjoin

/-- Witness for `chunk_rejoin` at a concrete input. -/
theorem chunk_rejoin_witness :
    ([chars "hello there", chars "second para"] ≠ ([] : List PyStr)) ∧
    (∀ p ∈ [chars "hello there", chars "second para"], '\n' ∉ p) ∧
    ((chunk 500 [chars "hello there", chars "second para"]).map splitOn2).flatten
      = [chars "hello there", chars "second para"] :=
  ⟨by decide, by decide, chunk_rejoin 500 _ (by decide) (by decide)⟩

/-- Counterexample to claim C1 as stated: for the single paragraph
`"a\n\nb"` (which contains the blank-line separator) the rejoined chunks do
not reconstruct the original paragraph sequence. -/
theorem chunk_rejoin_cex :
    ((chunk 500 [chars "a\n\nb"]).map splitOn2).flatten ≠ [chars "a\n\nb"] := by
  decide

/-- Claim C2 (amended): the chunker seals only when the running word count
strictly exceeds `target` (`w_count > 500` in the source), so every chunk
except possibly the last has sealed word count `> target`; a single
paragraph longer than `target` still occupies exactly one chunk, and an
empty input yields zero chunks. -/
theorem chunk_seal (target : Nat) (ps : List PyStr) (p : PyStr)
    (ht : 0 < target) (hp : target < wlen p) :
    chunk target [] = [] ∧
    (∀ g ∈ (chunkGroups target ps [] 0).dropLast, target < (g.map wlen).sum) ∧
    chunk target [p] = [p] := by
  refine ⟨rfl, chunkGroups_seal_gt target ps [] 0 rfl, ?_⟩
  simp [chunk, chunkAux, hp, joinSep]

/-- Witness for `chunk_seal` at concrete inputs. -/
theorem chunk_seal_witness :
    0 < 1 ∧ 1 < wlen (chars "x y") ∧
    (chunk 1 [] = [] ∧
      (∀ g ∈ (chunkGroups 1 [chars "a", chars "b c"] [] 0).dropLast,
        1 < (g.map wlen).sum) ∧
      chunk 1 [chars "x y"] = [chars "x y"]) :=
  ⟨by decide, by decide, chunk_seal 1 [chars "a", chars "b c"] (chars "x y")
    (by decide) (by decide)⟩

/-- Counterexample to claim C2 as stated: the source chunker does not seal
when the running count merely reaches `target_words` — on `["a", "b"]` with
target 1 it differs from the spec-worded (reach-or-exceed) chunker. -/
theorem chunk_seal_cex :
    chunk 1 [chars "a", chars "b"] ≠ chunkSpec 1 [chars "a", chars "b"] := by
  decide

theorem genLoop_rejected (cap : Nat → GenAttempt)
    (h : ∀ i, acceptedB (cap i) = false) :
    ∀ k a, genLoop cap k a = ([fallbackQuestion], k)
  | 0, _ => rfl
  | k + 1, a => by
    have hrec := genLoop_rejected cap h k (a + 1)
    have ha := h a
    cases hc : cap a with
    | exn => simp [genLoop, hc, hrec]
    | parsed v =>
      rw [hc] at ha
      simp only [acceptedB] at ha
      cases hv : validateQuestions v with
      | error e => simp [genLoop, hc, hv, hrec]
      | ok b =>
        cases b with
        | true => rw [hv] at ha; simp at ha
        | false => simp [genLoop, hc, hv, hrec]

theorem genLoop_count_pos (cap : Nat → GenAttempt) (k a : Nat) :
    1 ≤ (genLoop cap (k + 1) a).2 := by
  cases hc : cap a with
  | exn => simp [genLoop, hc]
  | parsed v =>
    cases hv : validateQuestions v with
    | error e => simp [genLoop, hc, hv]
    | ok b => cases b <;> simp [genLoop, hc, hv]

theorem validateQuestions_ok_shape (v : JVal)
    (h : validateQuestions v = Except.ok true) :
    ∃ q qs, v = JVal.arr (q :: qs) := by
  cases v with
  | arr xs =>
    cases xs with
    | nil => exact absurd h (by simp [validateQuestions])
    | cons q qs => exact ⟨q, qs, rfl⟩
  | null => exact absurd h (by simp [validateQuestions])
  | bool b => exact absurd h (by simp [validateQuestions])
  | num n => exact absurd h (by simp [validateQuestions])
  | str s => exact absurd h (by simp [validateQuestions])
  | obj fields => exact absurd h (by simp [validateQuestions])

theorem genLoop_result_ne_nil (cap : Nat → GenAttempt) :
    ∀ k a, (genLoop cap k a).1 ≠ []
  | 0, _ => by simp [genLoop]
  | k + 1, a => by
    cases hc : cap a with
    | exn => simpa [genLoop, hc] using genLoop_result_ne_nil cap k (a + 1)
    | parsed v =>
      cases hv : validateQuestions v with
      | error e => simpa [genLoop, hc, hv] using genLoop_result_ne_nil cap k (a + 1)
      | ok b =>
        cases b with
        | false => simpa [genLoop, hc, hv] using genLoop_result_ne_nil cap k (a + 1)
        | true =>
          obtain ⟨q, qs, rfl⟩ := validateQuestions_ok_shape v hv
          simp [genLoop, hc, hv, jarrElems]

/-- Claim C3 (amended): with the key present and a capability whose every
attempt is malformed (raises, fails to parse, or fails the validation
check), `generate_cat_questions` invokes the capability exactly `retries`
times — not `retries + 1` — and then returns the fallback record. -/
theorem generate_malformed_all (cap : Nat → GenAttempt) (retries : Nat)
    (h : ∀ i, acceptedB (cap i) = false) :
    generate_cat_questions true cap retries = ([fallbackQuestion], retries) := by
  simp [generate_cat_questions, genLoop_rejected cap h retries 0]

/-- Witness for `generate_malformed_all` with an always-raising capability
and the default of 3 attempts used by the source. -/
theorem generate_malformed_all_witness :
    (∀ i : Nat, acceptedB ((fun _ => GenAttempt.exn) i) = false) ∧
    generate_cat_questions true (fun _ => GenAttempt.exn) 3
      = ([fallbackQuestion], 3) :=
  ⟨fun _ => rfl, generate_malformed_all (fun _ => GenAttempt.exn) 3 (fun _ => rfl)⟩

/-- Counterexample to claim C3 as stated: with the retry parameter 0 the
capability is invoked 0 times, not 0 + 1 times. -/
theorem generate_retry_count_cex :
    (generate_cat_questions true (fun _ => GenAttempt.exn) 0).2 ≠ 0 + 1 := by
  decide

theorem buildPassages_text (apiKey : Bool) (capFor : Nat → Nat → GenAttempt) :
    ∀ chunks i, (buildPassages apiKey capFor chunks i).map Passage.text = chunks
  | [], _ => rfl
  | txt :: rest, i => by
    simp [buildPassages, buildPassages_text apiKey capFor rest (i + 1)]

/-- Claim C4 (confirmed): after exhausting all attempts the generator
returns the deterministic one-element fallback record (never raising,
never dropping the passage), and the per-passage loop of `main` gives every
chunk its own passage record, in order. -/
theorem generate_fallback_coverage (cap : Nat → GenAttempt) (retries : Nat)
    (apiKey : Bool) (capFor : Nat → Nat → GenAttempt) (chunks : List PyStr)
    (h : ∀ i, acceptedB (cap i) = false) :
    (generate_cat_questions true cap retries).1 = [fallbackQuestion] ∧
    (buildPassages apiKey capFor chunks 0).map Passage.text = chunks := by
  refine ⟨?_, buildPassages_text apiKey capFor chunks 0⟩
  simp [generate_cat_questions, genLoop_rejected cap h retries 0]

/-- Witness for `generate_fallback_coverage` at concrete inputs. -/
theorem generate_fallback_coverage_witness :
    (∀ i : Nat, acceptedB ((fun _ => GenAttempt.exn) i) = false) ∧
    ((generate_cat_questions true (fun _ => GenAttempt.exn) 3).1
        = [fallbackQuestion] ∧
      (buildPassages true capForStub [chars "t u v"] 0).map Passage.text
        = [chars "t u v"]) :=
  ⟨fun _ => rfl, generate_fallback_coverage (fun _ => GenAttempt.exn) 3 true
    capForStub [chars "t u v"] (fun _ => rfl)⟩

/-- Claim C8 (amended): an attempt is accepted exactly when the parsed
value passes the weak check of `scraper.py:113` — it is a non-empty JSON
list whose first element contains `question` — and on acceptance the
parsed list itself is returned after a single invocation.  Option counts,
`correct_index` ranges and `explanation` fields are not checked. -/
theorem genLoop_first (cap : Nat → GenAttempt) (v : JVal) (k a : Nat)
    (h0 : cap a = GenAttempt.parsed v) :
    genLoop cap (k + 1) a =
      (match validateQuestions v with
        | Except.ok true => (jarrElems v, 1)
        | _ => ((genLoop cap k (a + 1)).1, (genLoop cap k (a + 1)).2 + 1)) := by
  simp only [genLoop, h0]

theorem generate_first_attempt_iff (v : JVal) (cap : Nat → GenAttempt)
    (r : Nat) (h0 : cap 0 = GenAttempt.parsed v) :
    ((generate_cat_questions true cap (r + 2)).2 = 1 ↔
      validateQuestions v = Except.ok true) ∧
    (validateQuestions v = Except.ok true →
      generate_cat_questions true cap (r + 2) = (jarrElems v, 1)) := by
  have hpos := genLoop_count_pos cap r 1
  have hstep : genLoop cap (r + 2) 0 =
      (match validateQuestions v with
        | Except.ok true => (jarrElems v, 1)
        | _ => ((genLoop cap (r + 1) 1).1, (genLoop cap (r + 1) 1).2 + 1)) :=
    genLoop_first cap v (r + 1) 0 h0
  cases hv : validateQuestions v with
  | ok b =>
    cases b with
    | true =>
      simp only [hv] at hstep
      have hres : generate_cat_questions true cap (r + 2) = (jarrElems v, 1) := by
        show genLoop cap (r + 2) 0 = _
        rw [hstep]
      exact ⟨by simp [hres], fun _ => hres⟩
    | false =>
      simp only [hv] at hstep
      have hcnt : (generate_cat_questions true cap (r + 2)).2
          = (genLoop cap (r + 1) 1).2 + 1 := by
        show (genLoop cap (r + 2) 0).2 = _
        rw [hstep]
      refine ⟨⟨fun hcount => ?_, fun hok => absurd hok (by simp)⟩,
        fun hok => absurd hok (by simp)⟩
      rw [hcnt] at hcount
      omega
  | error e =>
    simp only [hv] at hstep
    have hcnt : (generate_cat_questions true cap (r + 2)).2
        = (genLoop cap (r + 1) 1).2 + 1 := by
      show (genLoop cap (r + 2) 0).2 = _
      rw [hstep]
    refine ⟨⟨fun hcount => ?_, fun hok => absurd hok (by simp)⟩,
      fun hok => absurd hok (by simp)⟩
    rw [hcnt] at hcount
    omega

/-- Witness for `generate_first_attempt_iff`: a response whose first entry
is a bare string containing `question` is accepted on the first attempt. -/
theorem generate_first_attempt_iff_witness :
    capConstParsed 0 = GenAttempt.parsed strQuestionResponse ∧
    (((generate_cat_questions true capConstParsed (1 + 2)).2 = 1 ↔
        validateQuestions strQuestionResponse = Except.ok true) ∧
      (validateQuestions strQuestionResponse = Except.ok true →
        generate_cat_questions true capConstParsed (1 + 2)
          = (jarrElems strQuestionResponse, 1))) :=
  ⟨rfl, generate_first_attempt_iff strQuestionResponse capConstParsed 1 rfl⟩

/-- Counterexample to claim C8 as stated: a response whose single entry has
a `question` key but no options, no `correct_index` and no explanation is
accepted and returned on the first attempt instead of being treated as a
validation failure. -/
theorem validate_weak_cex :
    generate_cat_questions true (fun _ => GenAttempt.parsed badResponse) 3
      = ([JVal.obj [(chars "question", JVal.str (chars "q"))]], 1) := rfl

/-- Claim C10 (confirmed): `generate_cat_questions` is total at its
interface — for every credential state and every capability behaviour
(exceptions and unparseable output included) it returns a list, and that
list is empty exactly when the API key is absent. -/
theorem generate_total_iff (apiKey : Bool) (cap : Nat → GenAttempt)
    (retries : Nat) :
    ((generate_cat_questions apiKey cap retries).1 = [] ↔ apiKey = false) := by
  cases apiKey with
  | false => simp [generate_cat_questions]
  | true =>
    have hne := genLoop_result_ne_nil cap retries 0
    simp [generate_cat_questions, hne]

theorem buildPassages_questions_nil (capFor : Nat → Nat → GenAttempt) :
    ∀ chunks i, ∀ q ∈ buildPassages false capFor chunks i, q.questions = []
  | [], _ => by simp [buildPassages]
  | txt :: rest, i => by
    intro q hq
    rcases List.mem_cons.mp hq with rfl | hq2
    · rfl
    · exact buildPassages_questions_nil capFor rest (i + 1) q hq2

/-- Claim C5 (amended): a missing credential does not abort the run.  The
run selects, chunks and writes as usual, and credential absence is handled
per generation call: every passage of the written dataset has an empty
question list, the capability never being consulted. -/
theorem main_missing_key (capFor : Nat → Nat → GenAttempt)
    (rss : Option (List PyStr)) (fetch : PyStr → Option (Option PyStr × List PyStr))
    (date : PyStr) :
    ∃ d, main_run false capFor rss fetch date = some d ∧
      ∀ q ∈ d.passages, q.questions = [] := by
  refine ⟨_, rfl, ?_⟩
  intro q hq
  exact buildPassages_questions_nil capFor _ 0 q (by simpa [assemble_data] using hq)

/-- Counterexample to claim C5 as stated: with the credential absent and a
healthy feed, the run does not abort — it writes a dataset with one
passage whose question list is empty. -/
theorem main_missing_key_cex :
    (main_run false capForStub (some itemsStub) fetchStub dateStub).map
      (fun d => (d.passages.length, d.passages.map (fun q => q.questions.isEmpty)))
      = some (1, [true]) := by
  decide

theorem main_content_backup (rss : Option (List PyStr))
    (fetch : PyStr → Option (Option PyStr × List PyStr))
    (h : (rss.bind get_latest_essay_from_rss).bind (scrape_essay fetch) = none) :
    main_content rss fetch = (BACKUP_TITLE, BACKUP_SOURCE, backupParagraphs) := by
  unfold main_content main_select
  cases hsel : rss.bind get_latest_essay_from_rss with
  | none => rfl
  | some u =>
    rw [hsel] at h
    simp only [Option.some_bind] at h
    simp only [Option.some_bind, h]

/-- Claim C6 (amended): when acquisition fails (feed unreachable, no essay
candidate, or scraping yields no usable paragraphs), the run does not
terminate early — it substitutes the built-in backup essay and still
writes a dataset (titled and sourced from the backup), overwriting any
prior output. -/
theorem main_acquisition_fallback (apiKey : Bool)
    (capFor : Nat → Nat → GenAttempt) (rss : Option (List PyStr))
    (fetch : PyStr → Option (Option PyStr × List PyStr)) (date : PyStr)
    (h : (rss.bind get_latest_essay_from_rss).bind (scrape_essay fetch) = none) :
    ∃ d, main_run apiKey capFor rss fetch date = some d ∧
      d.metadata.source = BACKUP_SOURCE ∧ d.metadata.title = BACKUP_TITLE := by
  have hc := main_content_backup rss fetch h
  exact ⟨_, rfl, by simp [main_run, assemble_data, hc], by simp [main_run, assemble_data, hc]⟩

/-- Witness for `main_acquisition_fallback` with an unreachable feed. -/
theorem main_acquisition_fallback_witness :
    (((none : Option (List PyStr)).bind get_latest_essay_from_rss).bind
        (scrape_essay fetchStub) = none) ∧
    ∃ d, main_run true capForStub none fetchStub dateStub = some d ∧
      d.metadata.source = BACKUP_SOURCE ∧ d.metadata.title = BACKUP_TITLE :=
  ⟨rfl, main_acquisition_fallback true capForStub none fetchStub dateStub rfl⟩

/-- Counterexample to claim C6 as stated: with the feed unreachable the run
still produces (writes) a dataset rather than terminating without output. -/
theorem main_acquisition_cex :
    (main_run true capForStub none fetchStub dateStub).isSome = true := rfl

/-- Claim C7 (amended): the selector ignores any previously persisted
source entirely: it returns the first feed item whose link contains
`/essays/` — in particular the head item whenever the head link qualifies —
and any returned link is a qualifying member of the item list. -/
theorem selector_first (items : List PyStr) (hd : PyStr)
    (h : hasEssay hd = true) :
    get_latest_essay_from_rss (hd :: items) = some hd ∧
    ∀ r, get_latest_essay_from_rss items = some r →
      hasEssay r = true ∧ r ∈ items := by
  constructor
  · simp [get_latest_essay_from_rss, List.find?_cons_of_pos, h]
  · intro r hr
    simp only [get_latest_essay_from_rss] at hr
    exact ⟨List.find?_some hr, List.mem_of_find?_eq_some hr⟩

/-- Witness for `selector_first` on a two-item feed. -/
theorem selector_first_witness :
    hasEssay essayLinkA = true ∧
    (get_latest_essay_from_rss (essayLinkA :: [essayLinkB]) = some essayLinkA ∧
      ∀ r, get_latest_essay_from_rss [essayLinkB] = some r →
        hasEssay r = true ∧ r ∈ [essayLinkB]) :=
  ⟨by decide, selector_first [essayLinkB] essayLinkA (by decide)⟩

/-- Counterexample to claim C7 as stated: on a two-candidate feed whose
head link A qualifies, the selector returns A — even in the scenario the
claim describes (previous_source = A.link, more than one candidate), since
the source consults no previous_source at all. -/
theorem selector_cex :
    get_latest_essay_from_rss [essayLinkA, essayLinkB] = some essayLinkA ∧
    essayLinkA ≠ essayLinkB := by
  decide

theorem buildPassages_map_id (apiKey : Bool) (capFor : Nat → Nat → GenAttempt) :
    ∀ chunks i, (buildPassages apiKey capFor chunks i).map Passage.id
      = List.range' (i + 1) chunks.length
  | [], i => by simp [buildPassages]
  | txt :: rest, i => by
    simp [buildPassages, buildPassages_map_id apiKey capFor rest (i + 1),
      List.range'_succ]

theorem goodPara_ne_nil (p : PyStr) (h : goodPara p = true) : p ≠ [] := by
  intro hnil
  subst hnil
  simp [goodPara, wlen, countWords] at h

theorem chunk_mem_ne_nil (target : Nat) (ps : List PyStr)
    (hps : ∀ p ∈ ps, p ≠ []) : ∀ c ∈ chunk target ps, c ≠ [] := by
  intro c hc
  unfold chunk at hc
  rw [chunkAux_eq_groups] at hc
  obtain ⟨g, hg, rfl⟩ := List.mem_map.mp hc
  have hgne := chunkGroups_ne_nil target ps [] 0 g hg
  obtain ⟨q, g2, rfl⟩ := List.exists_cons_of_ne_nil hgne
  have hq : q ∈ ps := by
    have hj := chunkGroups_join target ps [] 0
    have hmem : q ∈ (chunkGroups target ps [] 0).flatten :=
      List.mem_flatten.mpr ⟨_, hg, by simp⟩
    simpa [hj] using hmem
  have hqne := hps q hq
  cases g2 with
  | nil => simpa [joinSep] using hqne
  | cons r g3 =>
    simp only [joinSep]
    intro hnil
    exact hqne (List.append_eq_nil.mp (List.append_eq_nil.mp hnil).1).1

theorem main_content_success (rss : Option (List PyStr))
    (fetch : PyStr → Option (Option PyStr × List PyStr))
    (items : List PyStr) (u : PyStr) (t : Option PyStr) (raw : List PyStr)
    (h0 : rss = some items)
    (h1 : get_latest_essay_from_rss items = some u)
    (h2 : fetch u = some (t, raw))
    (h3 : (raw.filter goodPara).isEmpty = false) :
    main_content rss fetch = (t.getD (chars "Aeon Essay"), u, raw.filter goodPara) := by
  subst h0
  have hs : scrape_essay fetch u = some (t.getD (chars "Aeon Essay"), raw.filter goodPara) := by
    simp [scrape_essay, h2, h3]
  unfold main_content main_select
  simp [h1, hs]

/-- Claim C9 (confirmed, on the successful-acquisition path): in the
assembled dataset, passage ids are exactly 1, 2, ..., n for the n chunks
in chunk-creation order, every passage text is non-empty, and
`metadata.source` is the link of the selected candidate, verbatim. -/
theorem main_success_invariants (apiKey : Bool)
    (capFor : Nat → Nat → GenAttempt) (rss : Option (List PyStr))
    (fetch : PyStr → Option (Option PyStr × List PyStr)) (date : PyStr)
    (items : List PyStr) (u : PyStr) (t : Option PyStr) (raw : List PyStr)
    (h0 : rss = some items)
    (h1 : get_latest_essay_from_rss items = some u)
    (h2 : fetch u = some (t, raw))
    (h3 : (raw.filter goodPara).isEmpty = false) :
    ∃ d, main_run apiKey capFor rss fetch date = some d ∧
      d.metadata.source = u ∧
      d.passages.map Passage.id
        = List.range' 1 (chunk 500 (raw.filter goodPara)).length ∧
      ∀ q ∈ d.passages, q.text ≠ [] := by
  have hc := main_content_success rss fetch items u t raw h0 h1 h2 h3
  refine ⟨_, rfl, ?_, ?_, ?_⟩
  · simp [assemble_data, hc]
  · simp [assemble_data, hc, buildPassages_map_id]
  · intro q hq
    have hq1 : q ∈ buildPassages apiKey capFor (chunk 500 (raw.filter goodPara)) 0 := by
      simpa [assemble_data, hc] using hq
    have hq2 : q.text ∈ chunk 500 (raw.filter goodPara) := by
      rw [← buildPassages_text apiKey capFor (chunk 500 (raw.filter goodPara)) 0]
      exact List.mem_map_of_mem Passage.text hq1
    exact chunk_mem_ne_nil 500 (raw.filter goodPara)
      (fun p hp => goodPara_ne_nil p (List.mem_filter.mp hp).2) q.text hq2

/-- Witness for `main_success_invariants` at fully concrete stubs. -/
theorem main_success_invariants_witness :
    get_latest_essay_from_rss itemsStub = some essayLinkA ∧
    fetchStub essayLinkA = some (some (chars "T"), [para26]) ∧
    ([para26].filter goodPara).isEmpty = false ∧
    ∃ d, main_run true capForStub (some itemsStub) fetchStub dateStub = some d ∧
      d.metadata.source = essayLinkA ∧
      d.passages.map Passage.id
        = List.range' 1 (chunk 500 ([para26].filter goodPara)).length ∧
      ∀ q ∈ d.passages, q.text ≠ [] :=
  ⟨by decide, rfl, by decide,
    main_success_invariants true capForStub (some itemsStub) fetchStub dateStub
      itemsStub essayLinkA (some (chars "T")) [para26] rfl (by decide) rfl (by decide)⟩
